import Mathlib

set_option maxRecDepth 100000

/-!
Verification of the auto-test-generator pipeline (symbol extraction,
scenario synthesis, code rendering, project indexing, worker pool).
Each Go function used by the claims is embedded as an executable Lean
definition; Go maps are modelled as association lists, and wherever the
Go code iterates over a map (whose iteration order is randomized by the
runtime) the iteration order is passed in as an explicit parameter.
-/

namespace AutoTest

/-- Go regexp class `\s` (RE2, ASCII): tab, newline, form feed, carriage return, space. -/
def isGoSpace (c : Char) : Bool :=
  c = ' ' || c = '\t' || c = '\n' || c = '\x0c' || c = '\r'

/-- Go regexp class `\w` (RE2, ASCII): letters, digits, underscore. -/
def isWordChar (c : Char) : Bool :=
  c.isAlphanum || c = '_'

/-- Whitespace trimmed by Go `strings.TrimSpace` (ASCII plus the two
Latin-1 space code points). -/
def isGoTrimSpace (c : Char) : Bool :=
  c = ' ' || c = '\t' || c = '\n' || c = '\x0b' || c = '\x0c' || c = '\r' ||
  c = '\x85' || c = '\xa0'

/-- Go `strings.TrimSpace`. -/
def goTrim (s : String) : String :=
  String.mk (((s.data.dropWhile isGoTrimSpace).reverse.dropWhile isGoTrimSpace).reverse)

/-- Go `strings.TrimSuffix`. -/
def goTrimTrailing (s suffix : String) : String :=
  if suffix.data.isSuffixOf s.data then String.mk (s.data.take (s.data.length - suffix.data.length)) else s

/-- Go `strings.TrimPrefix`. -/
def goTrimLeading (s pre : String) : String :=
  if pre.data.isPrefixOf s.data then String.mk (s.data.drop pre.data.length) else s

/-- Go `strings.Contains` on character lists. -/
def containsSub (needle : List Char) : List Char → Bool
  | [] => needle.isEmpty
  | c :: rest => needle.isPrefixOf (c :: rest) || containsSub needle rest

/-- Go `strings.Contains`. -/
def strContains (s sub : String) : Bool :=
  containsSub sub.data s.data

/-- Go `strings.ToLower` (ASCII range, the only one the sources exercise). -/
def goToLower (s : String) : String :=
  String.mk (s.data.map Char.toLower)

/-- Go `strings.Split` for a single-character separator (the only separators
the sources use: `,`, newline, `/`). -/
def splitOnChar (sep : Char) : List Char → List (List Char)
  | [] => [[]]
  | c :: cs =>
    let rest := splitOnChar sep cs
    if c = sep then [] :: rest
    else
      match rest with
      | r :: rs => (c :: r) :: rs
      | [] => [[c]]

/-- Go `strings.HasPrefix`. -/
def hasLead (s pre : String) : Bool :=
  pre.data.isPrefixOf s.data

/-- Split a character list into its maximal prefix satisfying `p` and the rest
(the greedy match of a character-class repetition). -/
def takeWhileSplit (p : Char → Bool) : List Char → List Char × List Char
  | [] => ([], [])
  | c :: cs =>
    if p c then
      let (t, r) := takeWhileSplit p cs
      (c :: t, r)
    else ([], c :: cs)

/-- Match a literal string at the head of the input, returning the rest. -/
def matchLit : List Char → List Char → Option (List Char)
  | [], s => some s
  | _, [] => none
  | l :: ls, c :: cs => if c = l then matchLit ls cs else none

/-- Greedy `\s+`: at least one Go-whitespace character. -/
def matchSpaces1 (s : List Char) : Option (List Char) :=
  let (t, r) := takeWhileSplit isGoSpace s
  if t.isEmpty then none else some r

/-- Greedy `\s*`. -/
def matchSpaces0 (s : List Char) : List Char :=
  (takeWhileSplit isGoSpace s).2

/-- Greedy `(\w+)`: capture at least one word character. -/
def matchWord1 (s : List Char) : Option (List Char × List Char) :=
  let (t, r) := takeWhileSplit isWordChar s
  if t.isEmpty then none else some (t, r)

/-- The portion of `s` consumed by a match that left `rest`. -/
def consumedBy (s rest : List Char) : List Char :=
  s.take (s.length - rest.length)

/-- One attempt, at the head of `s`, of the Go pattern
`export\s+(?:async\s+)?function\s+(\w+)\s*\(([^)]*)\)` from `extractExports`.
Returns (full match text, captured name, captured parameter text) and the rest.
The optional group is committed: taking it can never make a later literal fail
where skipping it would succeed, because `async` and `function` share no prefix. -/
def matchFuncAt (s : List Char) : Option ((List Char × List Char × List Char) × List Char) := do
  let s1 ← matchLit "export".data s
  let s2 ← matchSpaces1 s1
  let s3 :=
    match matchLit "async".data s2 with
    | some sa =>
      match matchSpaces1 sa with
      | some sb => sb
      | none => s2
    | none => s2
  let s4 ← matchLit "function".data s3
  let s5 ← matchSpaces1 s4
  let (name, s6) ← matchWord1 s5
  let s7 := matchSpaces0 s6
  match s7 with
  | '(' :: s8 =>
    let (params, s9) := takeWhileSplit (fun c => c ≠ ')') s8
    match s9 with
    | ')' :: s10 => some ((consumedBy s s10, name, params), s10)
    | _ => none
  | _ => none

/-- One attempt of the Go pattern
`export\s+const\s+(\w+)\s*=\s*(?:async\s*)?\(([^)]*)\)\s*=>` from `extractExports`. -/
def matchConstAt (s : List Char) : Option ((List Char × List Char × List Char) × List Char) := do
  let s1 ← matchLit "export".data s
  let s2 ← matchSpaces1 s1
  let s3 ← matchLit "const".data s2
  let s4 ← matchSpaces1 s3
  let (name, s5) ← matchWord1 s4
  let s6 := matchSpaces0 s5
  match s6 with
  | '=' :: s7 =>
    let s8 := matchSpaces0 s7
    let s9 :=
      match matchLit "async".data s8 with
      | some sa => matchSpaces0 sa
      | none => s8
    match s9 with
    | '(' :: s10 =>
      let (params, s11) := takeWhileSplit (fun c => c ≠ ')') s10
      match s11 with
      | ')' :: s12 =>
        let s13 := matchSpaces0 s12
        match s13 with
        | '=' :: '>' :: s14 => some ((consumedBy s s14, name, params), s14)
        | _ => none
      | _ => none
    | _ => none
  | _ => none

/-- One attempt of the Go pattern `export\s+class\s+(\w+)` from `extractExports`. -/
def matchClassAt (s : List Char) : Option (List Char × List Char) := do
  let s1 ← matchLit "export".data s
  let s2 ← matchSpaces1 s1
  let s3 ← matchLit "class".data s2
  let s4 ← matchSpaces1 s3
  matchWord1 s4

/-- One attempt of the Go pattern
`export\s+default\s+(?:function|class)?\s*(\w+)?` from `extractExports`.
The captured name may be empty (the group is optional). -/
def matchDefaultAt (s : List Char) : Option (List Char × List Char) := do
  let s1 ← matchLit "export".data s
  let s2 ← matchSpaces1 s1
  let s3 ← matchLit "default".data s2
  let s4 ← matchSpaces1 s3
  let s5 :=
    match matchLit "function".data s4 with
    | some sa => sa
    | none =>
      match matchLit "class".data s4 with
      | some sb => sb
      | none => s4
  let s6 := matchSpaces0 s5
  let (name, s7) := takeWhileSplit isWordChar s6
  some (name, s7)

/-- Left-to-right non-overlapping scan, as Go `FindAllStringSubmatch(code, -1)`:
try the matcher at each position; on success record the captures and resume at
the match end (all matchers above consume at least one character). Fuel is the
input length, which bounds the number of steps. -/
def scanAllAux {α : Type} (m : List Char → Option (α × List Char)) :
    Nat → List Char → List α
  | 0, _ => []
  | _ + 1, [] => []
  | fuel + 1, c :: rest =>
    match m (c :: rest) with
    | some (a, r) =>
      a :: scanAllAux m fuel (if r.length < rest.length + 1 then r else rest)
    | none => scanAllAux m fuel rest

/-- All leftmost non-overlapping matches of `m` in `s`. -/
def scanAll {α : Type} (m : List Char → Option (α × List Char)) (s : List Char) : List α :=
  scanAllAux m s.length s

/-- `exportedSymbol` from internal/gen/generate.go. -/
structure ExportedSymbol where
  name : String
  kind : String
  isAsync : Bool
  params : List String
  isDefault : Bool
deriving Repr, DecidableEq

/-- Drop everything from the first `:` or `=` on — Go
`strings.IndexAny(param, ":=")` followed by slicing. -/
def cutAtColonEq : List Char → List Char
  | [] => []
  | c :: cs => if c = ':' || c = '=' then [] else c :: cutAtColonEq cs

/-- `parseParams` from internal/gen/generate.go: split the parameter text on
commas, keep each trimmed name before any `:` or `=`, drop empties. -/
def parseParams (paramStr : String) : List String :=
  if goTrim paramStr = "" then []
  else
    (splitOnChar ',' paramStr.data).filterMap fun part =>
      let p := goTrim (String.mk part)
      let p' := goTrim (String.mk (cutAtColonEq p.data))
      if p' = "" then none else some p'

/-- The symbols the `funcPattern` loop of `extractExports` appends: all
matches of the exported-function pattern, in scan order. `isAsync` is Go
`strings.Contains(match[0], "async")` on the full match text. -/
def funcExports (code : String) : List ExportedSymbol :=
  (scanAll matchFuncAt code.data).map fun m =>
    { name := String.mk m.2.1, kind := "function",
      isAsync := containsSub "async".data m.1,
      params := parseParams (String.mk m.2.2), isDefault := false }

/-- The symbols the `constPattern` loop of `extractExports` appends. -/
def constExports (code : String) : List ExportedSymbol :=
  (scanAll matchConstAt code.data).map fun m =>
    { name := String.mk m.2.1, kind := "const",
      isAsync := containsSub "async".data m.1,
      params := parseParams (String.mk m.2.2), isDefault := false }

/-- The symbols the `classPattern` loop of `extractExports` appends. -/
def classExports (code : String) : List ExportedSymbol :=
  (scanAll matchClassAt code.data).map fun m =>
    { name := String.mk m, kind := "class", isAsync := false,
      params := [], isDefault := false }

/-- The symbol the `defaultPattern` block of `extractExports` appends: only
the first match is used, named by its captured identifier or the literal
"default" when the capture is empty. -/
def defaultExports (code : String) : List ExportedSymbol :=
  match scanAll matchDefaultAt code.data with
  | [] => []
  | m :: _ =>
    [{ name := if m.isEmpty then "default" else String.mk m,
       kind := "default", isAsync := false, params := [], isDefault := true }]

/-- `extractExports` from internal/gen/generate.go: run the four patterns over
the whole text, one pattern at a time, in the source's order — all function
matches, then all arrow-constant matches, then all class matches, then the
first default-export match. -/
def extractExports (code : String) : List ExportedSymbol :=
  funcExports code ++ constExports code ++ classExports code ++ defaultExports code

/-- The dynamic values the generator stores in Go `interface{}` slots:
exactly the shapes `generateSampleValue` and `formatValue` handle (the number
case is the float64 literal 42, modelled as a natural number). -/
inductive GoValue where
  | vStr (s : String)
  | vNum (n : Nat)
  | vBool (b : Bool)
  | vArr
  | vObj
  | vNil
deriving Repr, DecidableEq

/-- `Parameter` from internal/gen/augment.go (the Go field `Type` is spelled
`Typ` because `Type` is a Lean keyword). -/
structure Parameter where
  Name : String
  Typ : String
  Optional : Bool
  Default : String
deriving Repr, DecidableEq

/-- `ExportedFunction` from internal/gen/augment.go (the Go field `Type` is
spelled `Typ` because `Type` is a Lean keyword). -/
structure ExportedFunction where
  Name : String
  Typ : String
  IsAsync : Bool
  Parameters : List Parameter
  ReturnType : String
  Description : String
deriving Repr, DecidableEq

/-- `TestScenario` from internal/gen/augment.go. `Inputs` is a Go
`map[string]interface{}`, modelled as an association list holding the map's
content; code that iterates the map receives the iteration order separately. -/
structure TestScenario where
  Name : String
  Description : String
  Inputs : List (String × GoValue)
  Expected : String
  EdgeCase : Bool
deriving Repr, DecidableEq

/-- Go map assignment `m[k] = v` on the association-list model: replace the
existing entry or append a new one. -/
def mapUpsert {α : Type} (m : List (String × α)) (k : String) (v : α) : List (String × α) :=
  if m.any (fun p => p.1 = k) then m.map (fun p => if p.1 = k then (k, v) else p)
  else m ++ [(k, v)]

/-- Go map read `m[k]` with a zero-value default. -/
def mapGetD {α : Type} (m : List (String × α)) (k : String) (dflt : α) : α :=
  match m.find? (fun p => p.1 = k) with
  | some p => p.2
  | none => dflt

/-- Go two-value map read `v, ok := m[k]`. -/
def mapGet? {α : Type} (m : List (String × α)) (k : String) : Option α :=
  match m.find? (fun p => p.1 = k) with
  | some p => some p.2
  | none => none

/-- `generateSampleValue` from internal/gen/augment.go. -/
def generateSampleValue (typeStr : String) : GoValue :=
  let t := goToLower typeStr
  if strContains t "string" then .vStr "sample"
  else if strContains t "number" then .vNum 42
  else if strContains t "boolean" then .vBool true
  else if strContains t "array" then .vArr
  else if strContains t "object" then .vObj
  else .vNil

/-- `generateSampleInputs` from internal/gen/augment.go: one map entry per
parameter, keyed by the parameter name. -/
def generateSampleInputs (params : List Parameter) : List (String × GoValue) :=
  params.foldl (fun m p => mapUpsert m p.Name (generateSampleValue p.Typ)) []

/-- `generateBasicScenarios` from internal/gen/augment.go: happy path always;
null input only when there is at least one parameter; empty input always;
async resolution appended only for async symbols. -/
def generateBasicScenarios (exp : ExportedFunction) : List TestScenario :=
  let happy : TestScenario :=
    { Name := exp.Name ++ " - happy path",
      Description := "Test " ++ exp.Name ++ " with valid inputs",
      Inputs := generateSampleInputs exp.Parameters,
      Expected := "success", EdgeCase := false }
  let nullInput : TestScenario :=
    { Name := exp.Name ++ " - null input",
      Description := "Test " ++ exp.Name ++ " with null input",
      Inputs := [("input", GoValue.vNil)],
      Expected := "error or default", EdgeCase := true }
  let emptyInput : TestScenario :=
    { Name := exp.Name ++ " - empty input",
      Description := "Test " ++ exp.Name ++ " with empty input",
      Inputs := [],
      Expected := "error or default", EdgeCase := true }
  let asyncScen : TestScenario :=
    { Name := exp.Name ++ " - async resolution",
      Description := "Test " ++ exp.Name ++ " async behavior",
      Inputs := generateSampleInputs exp.Parameters,
      Expected := "resolved promise", EdgeCase := false }
  [happy]
    ++ (if exp.Parameters.length > 0 then [nullInput] else [])
    ++ [emptyInput]
    ++ (if exp.IsAsync then [asyncScen] else [])

/-- `extractDependencies` from internal/gen/augment.go: per line, after
trimming, lines starting with `import ` contribute the trimmed, quote-trimmed
text after the first `from`. -/
def extractDependencies (code : String) : List String :=
  (splitOnChar '\n' code.data).filterMap fun rawLine =>
    let line := goTrim (String.mk rawLine)
    if hasLead line "import " then
      match idxOfSub "from".data line.data 0 with
      | some idx =>
        let rest := String.mk (line.data.drop (idx + 4))
        let rest := goTrim rest
        let rest := trimCutset rest ['\'', '"']
        if rest ≠ "" then some rest else none
      | none => none
    else none
where
  /-- Go `strings.Index`: index of the first occurrence of `needle`. -/
  idxOfSub (needle : List Char) : List Char → Nat → Option Nat
    | [], i => if needle.isEmpty then some i else none
    | c :: rest, i =>
      if needle.isPrefixOf (c :: rest) then some i else idxOfSub needle rest (i + 1)
  /-- Go `strings.Trim`: drop leading and trailing characters in the cutset. -/
  trimCutset (s : String) (cut : List Char) : String :=
    String.mk (((s.data.dropWhile (cut.contains ·)).reverse.dropWhile (cut.contains ·)).reverse)

/-- `AugmentCodeAnalysis` from internal/gen/augment.go. -/
structure AugmentCodeAnalysis where
  FilePath : String
  Exports : List ExportedFunction
  Dependencies : List String
  Complexity : String
  Description : String
  TestScenarios : List TestScenario
deriving Repr, DecidableEq

/-- The `exportedSymbol` → `ExportedFunction` conversion used by both
`analyzeBasic` (internal/gen/augment.go) and `IndexProject`: only `Name`,
`Type` and `IsAsync` are copied; `Parameters`, `ReturnType` and `Description`
are left at their Go zero values. -/
def toExportedFunction (sym : ExportedSymbol) : ExportedFunction :=
  { Name := sym.name, Typ := sym.kind, IsAsync := sym.isAsync,
    Parameters := [], ReturnType := "", Description := "" }

/-- `analyzeBasic` from internal/gen/augment.go. -/
def analyzeBasic (filePath : String) (code : String) : AugmentCodeAnalysis :=
  let symbols := extractExports code
  let exports := symbols.map toExportedFunction
  let scenarios := exports.foldl (fun acc e => acc ++ generateBasicScenarios e) []
  { FilePath := filePath, Exports := exports,
    Dependencies := extractDependencies code,
    Complexity := "medium", Description := "Auto-analyzed module",
    TestScenarios := scenarios }

/-- `formatValue` from internal/gen/augment.go (the float64 literal prints via
`%v`, which for the whole number 42 is its decimal digits). -/
def formatValue : GoValue → String
  | .vNil => "null"
  | .vStr s => "'" ++ s ++ "'"
  | .vBool true => "true"
  | .vBool false => "false"
  | .vNum n => toString n
  | .vArr => "[]"
  | .vObj => "\x7b\x7d"

/-- `getTypeofValue` from internal/gen/augment.go. -/
def getTypeofValue (typeStr : String) : String :=
  let t := goToLower typeStr
  if t = "function" then "function"
  else if t = "class" then "function"
  else "object"

/-- Go `strings.Join`-style comma separation as produced by the `i > 0` write
loops in the renderers. -/
def joinComma (parts : List String) : String :=
  String.intercalate ", " parts

/-- `generateTestCase` from internal/gen/augment.go. The Arrange step iterates
the Go map `scenario.Inputs`, whose iteration order the runtime randomizes;
`inputsIter` is that iteration order, a permutation of the map's entries.
The length test `len(scenario.Inputs) > 0` is taken on the map itself. -/
def generateTestCase (exp : ExportedFunction) (scenario : TestScenario)
    (_framework : String) (inputsIter : List (String × GoValue)) : String :=
  let testName :=
    if scenario.EdgeCase then "✓ [EDGE CASE] " ++ scenario.Name else scenario.Name
  "  it('" ++ testName ++ "', "
    ++ (if exp.IsAsync then "async " else "")
    ++ "() => \x7b\n"
    ++ (if scenario.Inputs.length > 0 then
          "    // Arrange\n"
          ++ (inputsIter.foldl (fun acc kv =>
                acc ++ "    const " ++ kv.1 ++ " = " ++ formatValue kv.2 ++ ";\n") "")
          ++ "\n"
        else "")
    ++ "    // Act\n"
    ++ (if exp.IsAsync then "    const result = await " ++ exp.Name ++ "("
        else "    const result = " ++ exp.Name ++ "(")
    ++ joinComma (exp.Parameters.map (fun p => p.Name))
    ++ ");\n\n"
    ++ "    // Assert\n"
    ++ "    expect(result).toBeDefined();\n"
    ++ "    // TODO: Add specific assertions based on expected behavior\n"
    ++ "  \x7d);\n"

/-- `generateTestsForExport` from internal/gen/augment.go: every scenario whose
name contains the export's name, then the existence test and the typeof test.
Each scenario's Arrange step iterates its `Inputs` map; the stored entry order
is used as the iteration order (every scenario this repository produces locally
has at most one entry, so all iteration orders agree on it). -/
def generateTestsForExport (exp : ExportedFunction) (scenarios : List TestScenario)
    (framework : String) : String :=
  "describe('" ++ exp.Name ++ "', () => \x7b\n"
    ++ "  let result: any;\n\n"
    ++ (scenarios.foldl (fun acc sc =>
          if strContains sc.Name exp.Name then
            acc ++ generateTestCase exp sc framework sc.Inputs ++ "\n"
          else acc) "")
    ++ "  it('should be defined', () => \x7b\n"
    ++ "    expect(" ++ exp.Name ++ ").toBeDefined();\n"
    ++ "  \x7d);\n\n"
    ++ "  it('should be a " ++ exp.Typ ++ "', () => \x7b\n"
    ++ "    expect(typeof " ++ exp.Name ++ ").toBe('" ++ getTypeofValue exp.Typ ++ "');\n"
    ++ "  \x7d);\n"
    ++ "\x7d);\n"

/-- Go `filepath.Ext`: the suffix from the final dot in the last path element,
empty when there is none. -/
def filepathExt (path : String) : String :=
  let rev := path.data.reverse
  let pre := rev.takeWhile (fun c => c ≠ '.' && c ≠ '/')
  match rev.drop pre.length with
  | '.' :: _ => String.mk ('.' :: pre.reverse)
  | _ => ""

/-- `generateTestCodeFromAnalysis` from internal/gen/augment.go. -/
def generateTestCodeFromAnalysis (tsPath : String) (analysis : AugmentCodeAnalysis)
    (framework : String) : String :=
  let importPath := goTrimLeading (goTrimTrailing tsPath (filepathExt tsPath)) "./"
  "/**\n"
    ++ " * Auto-generated test file (powered by Augment)\n"
    ++ " * Source: " ++ tsPath ++ "\n"
    ++ " * Description: " ++ analysis.Description ++ "\n"
    ++ " */\n\n"
    ++ "import \x7b " ++ joinComma (analysis.Exports.map (fun e => e.Name))
    ++ " \x7d from '../" ++ importPath ++ "';\n\n"
    ++ (if framework = "vitest" then
          "import \x7b describe, it, expect, beforeEach, afterEach, vi \x7d from 'vitest';\n\n"
        else
          "import \x7b describe, it, expect, beforeEach, afterEach, jest \x7d from '@jest/globals';\n\n")
    ++ (analysis.Exports.foldl (fun acc exp =>
          acc ++ generateTestsForExport exp analysis.TestScenarios framework ++ "\n") "")

/-- `GenerateTestWithAugment` from internal/gen/augment.go, on the local
analysis path: `AnalyzeWithAugment` falls back to `analyzeBasic` whenever the
external `augment` CLI is unavailable or its output fails to parse, which is
the only path free of external I/O. -/
def GenerateTestWithAugmentBasic (tsPath : String) (code : String)
    (framework : String) : Except String String :=
  let analysis := analyzeBasic tsPath code
  if analysis.Exports.length = 0 then
    .error ("no exported symbols found in " ++ tsPath)
  else
    .ok (generateTestCodeFromAnalysis tsPath analysis framework)

/-- `generateFunctionTests` from internal/gen/generate.go. -/
def generateFunctionTests (sym : ExportedSymbol) : String :=
  "  it('should be defined', () => \x7b\n"
    ++ "    expect(" ++ sym.name ++ ").toBeDefined();\n"
    ++ "  \x7d);\n\n"
    ++ (if sym.params.length > 0 then
          "  it('should handle basic input', () => \x7b\n"
          ++ "    // TODO: Replace with actual test data\n"
          ++ "    const result = " ++ sym.name ++ "("
          ++ joinComma (sym.params.map (fun _ => "null"))
          ++ ");\n"
          ++ "    expect(result).toBeDefined();\n"
          ++ "  \x7d);\n\n"
        else "")
    ++ (if sym.isAsync then
          "  it('should handle async operations', async () => \x7b\n"
          ++ "    // TODO: Replace with actual test data\n"
          ++ "    const result = await " ++ sym.name ++ "("
          ++ joinComma (sym.params.map (fun _ => "null"))
          ++ ");\n"
          ++ "    expect(result).toBeDefined();\n"
          ++ "  \x7d);\n\n"
        else "")
    ++ "  it('should handle edge cases', () => \x7b\n"
    ++ "    // TODO: Add edge case tests\n"
    ++ "    expect(true).toBe(true);\n"
    ++ "  \x7d);\n"

/-- `generateClassTests` from internal/gen/generate.go. -/
def generateClassTests (sym : ExportedSymbol) : String :=
  "  it('should be instantiable', () => \x7b\n"
    ++ "    const instance = new " ++ sym.name ++ "();\n"
    ++ "    expect(instance).toBeDefined();\n"
    ++ "  \x7d);\n\n"
    ++ "  it('should have expected methods', () => \x7b\n"
    ++ "    const instance = new " ++ sym.name ++ "();\n"
    ++ "    // TODO: Add method existence checks\n"
    ++ "    expect(instance).toBeDefined();\n"
    ++ "  \x7d);\n"

/-- `generateDefaultTests` from internal/gen/generate.go. -/
def generateDefaultTests (sym : ExportedSymbol) : String :=
  "  it('should be defined', () => \x7b\n"
    ++ "    expect(" ++ sym.name ++ ").toBeDefined();\n"
    ++ "  \x7d);\n"

/-- `generateTestForSymbol` from internal/gen/generate.go. -/
def generateTestForSymbol (sym : ExportedSymbol) : String :=
  "describe('" ++ sym.name ++ "', () => \x7b\n"
    ++ (match sym.kind with
        | "function" => generateFunctionTests sym
        | "const" => generateFunctionTests sym
        | "class" => generateClassTests sym
        | "default" => generateDefaultTests sym
        | _ => "")
    ++ "\x7d);\n"

/-- `generateTestCode` from internal/gen/generate.go. -/
def generateTestCode (tsPath : String) (exports : List ExportedSymbol)
    (_sourceCode : String) (testSyntax : String) : String :=
  let importPath := goTrimTrailing (goTrimTrailing tsPath ".ts") ".tsx"
  "/**\n"
    ++ " * Auto-generated test file\n"
    ++ " * Source: " ++ tsPath ++ "\n"
    ++ " */\n\n"
    ++ "import \x7b " ++ joinComma (exports.map (fun e => e.name))
    ++ " \x7d from '../" ++ importPath ++ "';\n\n"
    ++ (if testSyntax = "vitest" then
          "import \x7b describe, it, expect, beforeEach, afterEach \x7d from 'vitest';\n\n"
        else
          "import \x7b describe, it, expect, beforeEach, afterEach \x7d from '@jest/globals';\n\n")
    ++ (exports.foldl (fun acc exp => acc ++ generateTestForSymbol exp ++ "\n") "")

/-- `GenerateTest` from internal/gen/generate.go: fails exactly when
`extractExports` finds nothing, otherwise renders with the basic generator. -/
def GenerateTest (tsPath : String) (code : String) (framework : String) :
    Except String String :=
  let exports := extractExports code
  if exports.length = 0 then
    .error ("no exported symbols found in " ++ tsPath)
  else
    let testSyntax := if framework = "vitest" then "vitest" else "jest"
    .ok (generateTestCode tsPath exports code testSyntax)

/-- Go `path/filepath.Clean` for slash-separated paths: drop empty and `.`
elements, resolve `..` against preceding elements (keeping leading `..` on
relative paths, dropping it at the root), preserve rootedness. -/
def filepathClean (path : String) : String :=
  if path = "" then "."
  else
    let rooted := hasLead path "/"
    let comps := ((splitOnChar '/' path.data).map String.mk).filter (fun c => c ≠ "" && c ≠ ".")
    let stk := comps.foldl
      (fun (stk : List String) c =>
        if c = ".." then
          match stk with
          | [] => if rooted then [] else [".."]
          | top :: rest => if top = ".." then c :: stk else rest
        else c :: stk) []
    let body := String.intercalate "/" stk.reverse
    if rooted then (if body = "" then "/" else "/" ++ body)
    else (if body = "" then "." else body)

/-- Go `filepath.Dir`: everything up to and including the final separator,
cleaned (`.` when there is no separator). -/
def filepathDir (path : String) : String :=
  let rev := path.data.reverse
  let keep := rev.dropWhile (fun c => c ≠ '/')
  filepathClean (String.mk keep.reverse)

/-- Go `filepath.Join` on two elements: join the non-empty ones with a
separator and clean the result. -/
def filepathJoin (a b : String) : String :=
  if a = "" then (if b = "" then "" else filepathClean b)
  else if b = "" then filepathClean a
  else filepathClean (a ++ "/" ++ b)

/-- `AugmentContextEngine` from the context-engine source file. The three Go
maps are modelled as association lists holding the maps' content. -/
structure AugmentContextEngine where
  ProjectRoot : String
  IndexedCode : List (String × String)
  Exports : List (String × List ExportedFunction)
  Dependencies : List (String × List String)
  Initialized : Bool
deriving Repr, DecidableEq

/-- `NewAugmentContextEngine`: empty maps, `Initialized = false`. -/
def NewAugmentContextEngine (projectRoot : String) : AugmentContextEngine :=
  { ProjectRoot := projectRoot, IndexedCode := [], Exports := [],
    Dependencies := [], Initialized := false }

/-- The per-file body of `IndexProject`'s walk callback: store the text, the
converted exports (dropping parameters, as the source does) and the raw
dependencies under the file's relative path. -/
def indexFile (ace : AugmentContextEngine) (relPath content : String) :
    AugmentContextEngine :=
  let symbols := extractExports content
  let exports := symbols.map toExportedFunction
  { ace with
      IndexedCode := mapUpsert ace.IndexedCode relPath content,
      Exports := mapUpsert ace.Exports relPath exports,
      Dependencies := mapUpsert ace.Dependencies relPath (extractDependencies content) }

/-- `IndexProject` on a successful walk: `files` is the (relative path, text)
sequence of eligible files the traversal visits, abstracting the file system;
afterwards the engine is marked `Initialized`. -/
def IndexProject (ace : AugmentContextEngine) (files : List (String × String)) :
    AugmentContextEngine :=
  let indexed := files.foldl (fun a pc => indexFile a pc.1 pc.2) ace
  { indexed with Initialized := true }

/-- `GetRelatedCode` from the context-engine source: empty when the engine is
not initialized or the target has no dependencies; otherwise, for each
relative dependency, resolve against the target's directory and probe the
extension candidates in order, storing the first indexed hit. -/
def GetRelatedCode (ace : AugmentContextEngine) (targetFile : String) :
    List (String × String) :=
  if !ace.Initialized then []
  else
    let targetDeps := mapGetD ace.Dependencies targetFile []
    if targetDeps.length = 0 then []
    else
      targetDeps.foldl
        (fun related dep =>
          if hasLead dep "." then
            let dir := filepathDir targetFile
            let resolvedPath := filepathClean (filepathJoin dir dep)
            match [".ts", ".tsx", "/index.ts", "/index.tsx"].findSome?
                (fun ext =>
                  let searchPath := resolvedPath ++ ext
                  match mapGet? ace.IndexedCode searchPath with
                  | some code => some (searchPath, code)
                  | none => none) with
            | some hit => mapUpsert related hit.1 hit.2
            | none => related
          else related) []

/-- `GetExportContext` from the context-engine source: empty when not
initialized; otherwise the stored exports of each related file. The Go loop
iterates the `related` map; the stored entry order stands in for the map
iteration order (the resulting map content does not depend on it). -/
def GetExportContext (ace : AugmentContextEngine) (targetFile : String) :
    List (String × List ExportedFunction) :=
  if !ace.Initialized then []
  else
    let related := GetRelatedCode ace targetFile
    related.foldl
      (fun ctx rel =>
        match mapGet? ace.Exports rel.1 with
        | some exports => mapUpsert ctx rel.1 exports
        | none => ctx) []

/-- A value of the `GetProjectStats` result map. The Go float64 average is
modelled as the exact pair (numerator, denominator). -/
inductive StatVal where
  | count (n : Nat)
  | frac (num den : Nat)
deriving Repr, DecidableEq

/-- `GetProjectStats` from the context-engine source: the empty map when not
initialized. -/
def GetProjectStats (ace : AugmentContextEngine) : List (String × StatVal) :=
  if !ace.Initialized then []
  else
    let fileCount := ace.IndexedCode.length
    let totalExports := ace.Exports.foldl (fun acc e => acc + e.2.length) 0
    let totalDependencies := ace.Dependencies.foldl (fun acc d => acc + d.2.length) 0
    [("files_indexed", .count fileCount),
     ("total_exports", .count totalExports),
     ("total_dependencies", .count totalDependencies),
     ("avg_exports_per_file", .frac totalExports fileCount)]

/-- The reverse index built by `FindSimilarFiles`: export name → owning files,
excluding the target. `exportsIter` is the iteration order of the `Exports`
map (a permutation of its entries); it affects only the order within each
name's file list. -/
def buildExportToFiles (exportsIter : List (String × List ExportedFunction))
    (targetFile : String) : List (String × List String) :=
  exportsIter.foldl
    (fun acc fe =>
      if fe.1 = targetFile then acc
      else fe.2.foldl
        (fun acc2 e =>
          mapUpsert acc2 e.Name (mapGetD acc2 e.Name [] ++ [fe.1])) acc)
    []

/-- The `similarFiles` count map of `FindSimilarFiles`: for every target
export name, bump each file owning that name. -/
def buildSimilarCounts (exportToFiles : List (String × List String))
    (targetExports : List ExportedFunction) : List (String × Nat) :=
  targetExports.foldl
    (fun acc te =>
      (mapGetD exportToFiles te.Name []).foldl
        (fun a f => mapUpsert a f (mapGetD a f 0 + 1)) acc)
    []

/-- The similarity counts `FindSimilarFiles` computes for a target, given the
iteration order of the `Exports` map. -/
def similarCounts (ace : AugmentContextEngine) (targetFile : String)
    (exportsIter : List (String × List ExportedFunction)) : List (String × Nat) :=
  buildSimilarCounts (buildExportToFiles exportsIter targetFile)
    (mapGetD ace.Exports targetFile [])

/-- `FindSimilarFiles` from the context-engine source: nil when not
initialized, when `limit <= 0`, or when the target has no exports; otherwise
the final loop walks the `similarFiles` map in runtime-randomized order and
stops once `limit` entries are collected — no sorting of any kind happens.
`similarIter` is that iteration order: a permutation of the keys of
`similarCounts ace targetFile exportsIter`. -/
def FindSimilarFiles (ace : AugmentContextEngine) (targetFile : String)
    (limit : Int) (_exportsIter : List (String × List ExportedFunction))
    (similarIter : List String) : List String :=
  if !ace.Initialized || limit ≤ 0 then []
  else
    let targetExports := mapGetD ace.Exports targetFile []
    if targetExports.length = 0 then []
    else similarIter.take limit.toNat

/-- The heterogeneous Go map returned by `GetFileContext`, as a record; the
empty map returned when the engine is not initialized is `none`. -/
structure FileContext where
  file : String
  exports : List ExportedFunction
  dependencies : List String
  related_files : List (String × String)
  similar_files : List String
deriving Repr, DecidableEq

/-- `GetFileContext` from the context-engine source: `none` (the empty map)
when not initialized; otherwise the five keys, with `similar_files` computed
at limit 3 under the given map iteration orders. -/
def GetFileContext (ace : AugmentContextEngine) (targetFile : String)
    (exportsIter : List (String × List ExportedFunction))
    (similarIter : List String) : Option FileContext :=
  if !ace.Initialized then none
  else
    some { file := targetFile,
           exports := mapGetD ace.Exports targetFile [],
           dependencies := mapGetD ace.Dependencies targetFile [],
           related_files := GetRelatedCode ace targetFile,
           similar_files := FindSimilarFiles ace targetFile 3 exportsIter similarIter }

/-- `TestResult` from internal/gen/generate.go (`Error` is Go's nilable error). -/
structure TestResult where
  SourcePath : String
  TestPath : String
  TestCode : String
  Error : Option String
deriving Repr, DecidableEq

/-- The orchestrator state of the worker pool in `main`: `waiting` goroutines
have been spawned but hold no semaphore slot; `running` are mid-flight between
`semaphore <- struct{}{}` and the deferred `<-semaphore`; `freeSlots` is the
remaining capacity of the `semaphore` channel; `doneOk`/`doneErr` count
completed units by outcome. -/
structure PoolState where
  waiting : Nat
  running : Nat
  freeSlots : Nat
  doneOk : Nat
  doneErr : Nat
deriving Repr, DecidableEq

/-- The initial pool state: all `m` units spawned and waiting, all `n`
semaphore slots free. -/
def initPool (n m : Nat) : PoolState :=
  { waiting := m, running := 0, freeSlots := n, doneOk := 0, doneErr := 0 }

/-- One scheduler step of the worker pool in `main`: a waiting unit acquires a
free slot and starts, or a running unit completes — successfully or not — and
in either case the deferred receive frees its slot unconditionally. -/
inductive PoolStep : PoolState → PoolState → Prop where
  | acquire (w r f ok err : Nat) :
      PoolStep ⟨w + 1, r, f + 1, ok, err⟩ ⟨w, r + 1, f, ok, err⟩
  | finishOk (w r f ok err : Nat) :
      PoolStep ⟨w, r + 1, f, ok, err⟩ ⟨w, r, f + 1, ok + 1, err⟩
  | finishErr (w r f ok err : Nat) :
      PoolStep ⟨w, r + 1, f, ok, err⟩ ⟨w, r, f + 1, ok, err + 1⟩

/-- States the pool can reach from the initial state. -/
def PoolReachable (n m : Nat) (s : PoolState) : Prop :=
  Relation.ReflTransGen PoolStep (initPool n m) s

/-- One iteration of the result-collection loop of `main`: a failure is
logged and counted, a success is appended. -/
def collectStep (acc : List TestResult × Nat) (r : TestResult) : List TestResult × Nat :=
  match r.Error with
  | some _ => (acc.1, acc.2 + 1)
  | none => (acc.1 ++ [r], acc.2)

/-- The result-collection loop of `main`, over the drained channel order. -/
def collectResults (results : List TestResult) : List TestResult × Nat :=
  results.foldl collectStep ([], 0)

/-- The aggregate outcome of a run in `main` after collection. -/
inductive RunOutcome where
  | fatalAllFailed
  | noTests
  | generated (results : List TestResult)
deriving Repr, DecidableEq

/-- The aggregate-failure policy of `main` (lines after `close(results)`):
`log.Fatalf("all generations failed")` only when no unit succeeded and at
least one failed; plain "No tests generated" when there were no results at
all; otherwise continue with the successful results. -/
def aggregateRun (results : List TestResult) : RunOutcome :=
  let collected := collectResults results
  if collected.1.length = 0 then
    if collected.2 > 0 then .fatalAllFailed else .noTests
  else .generated collected.1

/-! Claim C5 — bounded concurrency of the worker pool. -/

theorem pool_slot_conservation {n m : Nat} {s : PoolState}
    (h : PoolReachable n m s) : s.running + s.freeSlots = n := by
  induction h with
  | refl => simp [initPool]
  | tail _ hstep ih => cases hstep <;> simp_all <;> omega

/-- C5: in every state the worker pool can reach from its start, at most `n`
units are mid-flight — every unit holds a semaphore slot between acquisition
and its unconditional release, and only `n` slots exist. -/
theorem pool_never_exceeds_limit (n m : Nat) (s : PoolState)
    (_hn : 1 ≤ n) (_hm : n < m) (h : PoolReachable n m s) : s.running ≤ n := by
  have hc := pool_slot_conservation h
  omega

/-- Witness for C5 at `n = 2`, `m = 3`: the state after one acquisition. -/
theorem pool_never_exceeds_limit_witness :
    1 ≤ 2 ∧ 2 < 3 ∧
    ({ waiting := 2, running := 1, freeSlots := 1,
       doneOk := 0, doneErr := 0 } : PoolState).running ≤ 2 :=
  ⟨by decide, by decide,
   pool_never_exceeds_limit 2 3 _ (by decide) (by decide)
     (Relation.ReflTransGen.single (PoolStep.acquire 2 0 1 0 0))⟩

/-! Claim C6 — scenario emission order. -/

/-- C6: the scenario synthesizer emits, by symbol shape: for a synchronous
symbol with parameters [happy path, null input, empty input]; for an async
symbol the same list with the async-resolution scenario appended; for a
zero-parameter synchronous symbol [happy path, empty input]. -/
theorem scenario_order_by_shape (exp : ExportedFunction) :
    (exp.IsAsync = false → exp.Parameters ≠ [] →
      (generateBasicScenarios exp).map (fun sc => sc.Name) =
        [exp.Name ++ " - happy path", exp.Name ++ " - null input",
         exp.Name ++ " - empty input"]) ∧
    (exp.IsAsync = true → exp.Parameters ≠ [] →
      (generateBasicScenarios exp).map (fun sc => sc.Name) =
        [exp.Name ++ " - happy path", exp.Name ++ " - null input",
         exp.Name ++ " - empty input", exp.Name ++ " - async resolution"]) ∧
    (exp.IsAsync = false → exp.Parameters = [] →
      (generateBasicScenarios exp).map (fun sc => sc.Name) =
        [exp.Name ++ " - happy path", exp.Name ++ " - empty input"]) := by
  refine ⟨fun ha hp => ?_, fun ha hp => ?_, fun ha hp => ?_⟩ <;>
    simp [generateBasicScenarios, ha, hp, List.length_pos]

/-- An async arrow-constant with one parameter. -/
def c6Exp : ExportedFunction :=
  { Name := "mul", Typ := "const", IsAsync := true,
    Parameters := [{ Name := "x", Typ := "number", Optional := false, Default := "" }],
    ReturnType := "", Description := "" }

/-- Witness for C6 on the async one-parameter symbol. -/
theorem scenario_order_by_shape_witness :
    (generateBasicScenarios c6Exp).map (fun sc => sc.Name) =
      [c6Exp.Name ++ " - happy path", c6Exp.Name ++ " - null input",
       c6Exp.Name ++ " - empty input", c6Exp.Name ++ " - async resolution"] :=
  (scenario_order_by_shape c6Exp).2.1 rfl (by decide)

/-! Claim C7 — the no-exported-symbols failure condition. -/

/-- C7: both generators fail — and fail with exactly the no-exported-symbols
condition — precisely when the extractor returns zero symbols; the extractor
itself returns the empty list rather than raising. -/
theorem generation_fails_iff_no_exports (tsPath code framework : String) :
    (GenerateTest tsPath code framework =
        Except.error ("no exported symbols found in " ++ tsPath) ↔
      extractExports code = []) ∧
    ((GenerateTest tsPath code framework).isOk = true ↔ extractExports code ≠ []) ∧
    (GenerateTestWithAugmentBasic tsPath code framework =
        Except.error ("no exported symbols found in " ++ tsPath) ↔
      extractExports code = []) ∧
    ((GenerateTestWithAugmentBasic tsPath code framework).isOk = true ↔
      extractExports code ≠ []) := by
  cases hx : extractExports code with
  | nil =>
    simp [GenerateTest, GenerateTestWithAugmentBasic, analyzeBasic, hx, Except.isOk,
      Except.toBool]
  | cons a l =>
    simp [GenerateTest, GenerateTestWithAugmentBasic, analyzeBasic, hx, Except.isOk,
      Except.toBool]

/-- Witness for C7: a file with no exports fails with the condition, a file
with one export succeeds. -/
theorem generation_fails_iff_no_exports_witness :
    GenerateTest "f.ts" "const x = 1" "jest" =
      Except.error ("no exported symbols found in " ++ "f.ts") ∧
    (GenerateTest "f.ts" "export function g() \x7b\x7d" "jest").isOk = true :=
  ⟨(generation_fails_iff_no_exports "f.ts" "const x = 1" "jest").1.mpr (by decide),
   (generation_fails_iff_no_exports "f.ts" "export function g() \x7b\x7d" "jest").2.1.mpr
     (by decide)⟩

/-! Claim C8 — aggregate failure policy. -/

theorem collectResults_characterization (results : List TestResult) :
    collectResults results =
      (results.filter (fun r => r.Error.isNone),
       results.countP (fun r => r.Error.isSome)) := by
  have h : ∀ (l : List TestResult) (acc : List TestResult × Nat),
      l.foldl collectStep acc =
        (acc.1 ++ l.filter (fun r => r.Error.isNone),
         acc.2 + l.countP (fun r => r.Error.isSome)) := by
    intro l
    induction l with
    | nil => intro acc; simp
    | cons r t ih =>
      intro acc
      cases hr : r.Error with
      | none =>
        simp [collectStep, hr, ih, List.filter_cons, List.countP_cons]
      | some e =>
        simp [collectStep, hr, ih, List.filter_cons, List.countP_cons, Nat.add_assoc,
          Nat.add_comm]
  simpa [collectResults] using h results ([], 0)

/-- C8: the run escalates to the process-level failure exactly when at least
one unit ran and every unit failed; with at least one success the run goes on
with exactly the successful results — failures stay local. -/
theorem aggregate_fatal_iff_all_failed (results : List TestResult) :
    (aggregateRun results = RunOutcome.fatalAllFailed ↔
      results ≠ [] ∧ ∀ r ∈ results, r.Error ≠ none) ∧
    ((∃ r ∈ results, r.Error = none) →
      aggregateRun results = RunOutcome.generated
        (results.filter (fun r => r.Error.isNone))) := by
  have hc := collectResults_characterization results
  constructor
  · rw [aggregateRun, hc]
    by_cases hfil : results.filter (fun r => r.Error.isNone) = []
    · by_cases hcp : results.countP (fun r => r.Error.isSome) > 0
      · simp only [hfil, List.length_nil, if_pos rfl, hcp, if_pos hcp]
        constructor
        · intro _
          have hall : ∀ r ∈ results, r.Error ≠ none := by
            intro r hr hnone
            have := List.filter_eq_nil_iff.mp hfil r hr
            simp [hnone] at this
          obtain ⟨r, hr, -⟩ := List.countP_pos_iff.mp hcp
          exact ⟨List.ne_nil_of_mem hr, hall⟩
        · intro _; rfl
      · simp only [hfil, List.length_nil, if_pos rfl, if_neg hcp]
        constructor
        · intro h; exact absurd h (by simp)
        · rintro ⟨hne, hall⟩
          obtain ⟨r, hr⟩ := List.exists_mem_of_ne_nil results hne
          have h1 := hall r hr
          have h2 : ¬ (r.Error.isSome = true) := by
            intro hs
            exact hcp (List.countP_pos_iff.mpr ⟨r, hr, hs⟩)
          cases he : r.Error with
          | none => exact absurd he h1
          | some e => rw [he] at h2; simp at h2
    · have hlen : (results.filter (fun r => r.Error.isNone)).length ≠ 0 := by
        simpa [List.length_eq_zero] using hfil
      simp only [if_neg hlen]
      constructor
      · intro h; exact absurd h (by simp)
      · rintro ⟨-, hall⟩
        exfalso
        obtain ⟨r, hr⟩ := List.exists_mem_of_ne_nil _ hfil
        have hrm := List.mem_filter.mp hr
        have := hall r hrm.1
        cases he : r.Error with
        | none => exact this he
        | some e => rw [he] at hrm; simp at hrm
  · rintro ⟨r, hr, hnone⟩
    rw [aggregateRun, hc]
    have hmem : r ∈ results.filter (fun r => r.Error.isNone) :=
      List.mem_filter.mpr ⟨hr, by simp [hnone]⟩
    have hlen : (results.filter (fun r => r.Error.isNone)).length ≠ 0 := by
      rw [Ne, List.length_eq_zero]
      exact List.ne_nil_of_mem hmem
    simp only [if_neg hlen]

/-- A successful and a failed unit result. -/
def c8Ok : TestResult :=
  { SourcePath := "a.ts", TestPath := "a.test.ts", TestCode := "ok", Error := none }

/-- A failed unit result. -/
def c8Err : TestResult :=
  { SourcePath := "b.ts", TestPath := "b.test.ts", TestCode := "", Error := some "boom" }

/-- Witness for C8: one success and one failure continue with the success. -/
theorem aggregate_fatal_iff_all_failed_witness :
    aggregateRun [c8Ok, c8Err] = RunOutcome.generated
      ([c8Ok, c8Err].filter (fun r => r.Error.isNone)) :=
  (aggregate_fatal_iff_all_failed [c8Ok, c8Err]).2
    ⟨c8Ok, List.mem_cons_self _ _, rfl⟩

/-! Claim C9 — reads are empty before initialization. -/

/-- C9: with `Initialized = false`, every read of the index returns the empty
result; a (successful) `IndexProject` leaves `Initialized = true`. -/
theorem reads_empty_before_initialized
    (ace : AugmentContextEngine) (targetFile : String) (limit : Int)
    (eIter : List (String × List ExportedFunction)) (sIter : List String)
    (files : List (String × String)) :
    (ace.Initialized = false →
      GetRelatedCode ace targetFile = [] ∧
      GetExportContext ace targetFile = [] ∧
      FindSimilarFiles ace targetFile limit eIter sIter = [] ∧
      GetFileContext ace targetFile eIter sIter = none ∧
      GetProjectStats ace = []) ∧
    (IndexProject ace files).Initialized = true := by
  constructor
  · intro h
    refine ⟨?_, ?_, ?_, ?_, ?_⟩ <;>
      simp [GetRelatedCode, GetExportContext, FindSimilarFiles, GetFileContext,
        GetProjectStats, h]
  · simp [IndexProject]

/-- Witness for C9 on a freshly created engine. -/
theorem reads_empty_before_initialized_witness :
    GetRelatedCode (NewAugmentContextEngine "/p") "a.ts" = [] ∧
    GetProjectStats (NewAugmentContextEngine "/p") = [] ∧
    (IndexProject (NewAugmentContextEngine "/p") []).Initialized = true := by
  have h := reads_empty_before_initialized (NewAugmentContextEngine "/p") "a.ts" 3 [] [] []
  exact ⟨(h.1 rfl).1, (h.1 rfl).2.2.2.2, h.2⟩

/-! Helper lemmas about the four extractor groups. -/

theorem kind_of_mem_funcExports {code : String} {s : ExportedSymbol}
    (h : s ∈ funcExports code) : s.kind = "function" := by
  simp only [funcExports, List.mem_map] at h
  obtain ⟨m, -, rfl⟩ := h
  rfl

theorem kind_of_mem_constExports {code : String} {s : ExportedSymbol}
    (h : s ∈ constExports code) : s.kind = "const" := by
  simp only [constExports, List.mem_map] at h
  obtain ⟨m, -, rfl⟩ := h
  rfl

theorem kind_of_mem_classExports {code : String} {s : ExportedSymbol}
    (h : s ∈ classExports code) : s.kind = "class" := by
  simp only [classExports, List.mem_map] at h
  obtain ⟨m, -, rfl⟩ := h
  rfl

theorem kind_of_mem_defaultExports {code : String} {s : ExportedSymbol}
    (h : s ∈ defaultExports code) : s.kind = "default" := by
  unfold defaultExports at h
  cases hscan : scanAll matchDefaultAt code.data with
  | nil => rw [hscan] at h; simp at h
  | cons m rest =>
    rw [hscan] at h
    simp only [List.mem_singleton] at h
    subst h
    rfl

theorem defaultExports_length_le_one (code : String) :
    (defaultExports code).length ≤ 1 := by
  unfold defaultExports
  cases scanAll matchDefaultAt code.data <;> simp

/-- The position of each symbol kind in the order the extractor's four
pattern loops run. -/
def kindRank (k : String) : Nat :=
  if k = "function" then 0
  else if k = "const" then 1
  else if k = "class" then 2
  else 3

theorem pairwise_rank_of_uniform_kind {l : List ExportedSymbol} {k : String}
    (h : ∀ s ∈ l, s.kind = k) :
    l.Pairwise (fun a b => kindRank a.kind ≤ kindRank b.kind) := by
  induction l with
  | nil => exact List.Pairwise.nil
  | cons a t ih =>
    refine List.Pairwise.cons (fun b hb => ?_)
      (ih fun s hs => h s (List.mem_cons_of_mem _ hs))
    rw [h a (List.mem_cons_self _ _), h b (List.mem_cons_of_mem _ hb)]

/-! Claim C1 — determinism of the code synthesizer. -/

/-- The `add` export with its two parameters populated with their type hints
(the shape an external analysis would hand to `generateTestCase`). -/
def c1Exp : ExportedFunction :=
  { Name := "add", Typ := "function", IsAsync := false,
    Parameters := [{ Name := "a", Typ := "number", Optional := false, Default := "" },
                   { Name := "b", Typ := "number", Optional := false, Default := "" }],
    ReturnType := "number", Description := "" }

/-- The happy-path scenario for `c1Exp`, with the two sample inputs
`generateSampleInputs` derives from the type hints. -/
def c1Scenario : TestScenario :=
  { Name := "add - happy path", Description := "Test add with valid inputs",
    Inputs := generateSampleInputs c1Exp.Parameters,
    Expected := "success", EdgeCase := false }

/-- C1: the rendering of a test case is NOT determined by the input model —
the Arrange step iterates the scenario's `Inputs` map, whose iteration order
Go randomizes per run, and the two orders of the same two-entry map render
different test text. -/
theorem generateTestCase_arrange_order_dependent :
    c1Scenario.Inputs = [("a", GoValue.vNum 42), ("b", GoValue.vNum 42)] ∧
    List.Perm [("b", GoValue.vNum 42), ("a", GoValue.vNum 42)] c1Scenario.Inputs ∧
    generateTestCase c1Exp c1Scenario "vitest" c1Scenario.Inputs ≠
      generateTestCase c1Exp c1Scenario "vitest"
        [("b", GoValue.vNum 42), ("a", GoValue.vNum 42)] :=
  ⟨by decide, by decide, by decide⟩

/-! Claim C2 — extractor ordering across declaration forms. -/

/-- A file declaring an exported class before an exported function. -/
def c2Text : String := "export class A \x7b\x7d\nexport function b() \x7b\x7d"

/-- C2 counterexample: in a text whose class declaration precedes its function
declaration, the extractor still returns the function symbol first — symbols
are not in first-seen order across declaration forms. -/
theorem extractExports_not_first_seen_across_forms :
    hasLead c2Text "export class A" = true ∧
    extractExports c2Text =
      [{ name := "b", kind := "function", isAsync := false, params := [], isDefault := false },
       { name := "A", kind := "class", isAsync := false, params := [], isDefault := false }] :=
  ⟨by decide, by decide⟩

/-- C2 (amended): the extractor returns symbols grouped by declaration form in
the fixed order functions, arrow-function constants, classes, default export —
the kind rank never decreases along the returned sequence (within each group
the scan itself is left to right). -/
theorem extractExports_grouped_by_form (code : String) :
    (extractExports code).Pairwise (fun a b => kindRank a.kind ≤ kindRank b.kind) := by
  have hcld : (classExports code ++ defaultExports code).Pairwise
      (fun a b => kindRank a.kind ≤ kindRank b.kind) := by
    refine List.pairwise_append.mpr
      ⟨pairwise_rank_of_uniform_kind (fun s hs => kind_of_mem_classExports hs),
       pairwise_rank_of_uniform_kind (fun s hs => kind_of_mem_defaultExports hs),
       fun a ha b hb => ?_⟩
    rw [kind_of_mem_classExports ha, kind_of_mem_defaultExports hb]
    decide
  have hccld : (constExports code ++ (classExports code ++ defaultExports code)).Pairwise
      (fun a b => kindRank a.kind ≤ kindRank b.kind) := by
    refine List.pairwise_append.mpr
      ⟨pairwise_rank_of_uniform_kind (fun s hs => kind_of_mem_constExports hs),
       hcld, fun a ha b hb => ?_⟩
    rw [kind_of_mem_constExports ha]
    rcases List.mem_append.mp hb with h | h
    · rw [kind_of_mem_classExports h]; decide
    · rw [kind_of_mem_defaultExports h]; decide
  have hall : (funcExports code ++
      (constExports code ++ (classExports code ++ defaultExports code))).Pairwise
      (fun a b => kindRank a.kind ≤ kindRank b.kind) := by
    refine List.pairwise_append.mpr
      ⟨pairwise_rank_of_uniform_kind (fun s hs => kind_of_mem_funcExports hs),
       hccld, fun a ha b hb => ?_⟩
    rw [kind_of_mem_funcExports ha]
    have hfun : kindRank "function" = 0 := by decide
    rw [hfun]
    exact Nat.zero_le _
  simpa [extractExports] using hall

/-! Claim C3 — similar-files ranking. -/

/-- A three-file project: the target `t.ts` exports A and B, `x.ts` shares one
name (score 1), `y.ts` shares both (score 2). -/
def c3Engine : AugmentContextEngine :=
  IndexProject (NewAugmentContextEngine "/proj")
    [("t.ts", "export function A() \x7b\x7d\nexport function B() \x7b\x7d"),
     ("x.ts", "export function A() \x7b\x7d"),
     ("y.ts", "export function A() \x7b\x7d\nexport function B() \x7b\x7d")]

/-- C3: `FindSimilarFiles` never sorts — the returned list is whatever prefix
of the runtime-randomized map iteration order fits in `limit`. Both orders of
the two-key score map are permutations of its keys, and under one of them the
call with limit 1 returns the lower-scoring file while the strictly
higher-scoring file is omitted. -/
theorem findSimilarFiles_ignores_scores :
    similarCounts c3Engine "t.ts" c3Engine.Exports = [("x.ts", 1), ("y.ts", 2)] ∧
    List.Perm ["x.ts", "y.ts"]
      ((similarCounts c3Engine "t.ts" c3Engine.Exports).map Prod.fst) ∧
    List.Perm ["y.ts", "x.ts"]
      ((similarCounts c3Engine "t.ts" c3Engine.Exports).map Prod.fst) ∧
    FindSimilarFiles c3Engine "t.ts" 1 c3Engine.Exports ["x.ts", "y.ts"] = ["x.ts"] ∧
    FindSimilarFiles c3Engine "t.ts" 1 c3Engine.Exports ["y.ts", "x.ts"] = ["y.ts"] ∧
    mapGetD (similarCounts c3Engine "t.ts" c3Engine.Exports) "x.ts" 0 <
      mapGetD (similarCounts c3Engine "t.ts" c3Engine.Exports) "y.ts" 0 :=
  ⟨by decide, by decide, by decide, by decide, by decide, by decide⟩

/-! Claim C4 — end-to-end example for the `add` file. -/

/-- The input file of the end-to-end example. -/
def c4Source : String :=
  "export function add(a: number, b: number): number \x7b return a+b \x7d"

/-- The text carried by either constructor of a generation result. -/
def exceptText : Except String String → String
  | .ok s => s
  | .error e => e

/-- The vitest rendering of the example file on the local analysis path. -/
def c4AugmentOut : String :=
  exceptText (GenerateTestWithAugmentBasic "math.ts" c4Source "vitest")

/-- The vitest rendering of the example file on the basic path. -/
def c4BasicOut : String :=
  exceptText (GenerateTest "math.ts" c4Source "vitest")

/-- C4: extraction does yield one function symbol `add` with two parameters,
but no rendering path produces the promised happy-path body: the local
analysis path drops the parameters when converting symbols, so its happy-path
test has no Arrange bindings at all (no `const a`, no `42`) and invokes
`add()` with no arguments; the basic path invokes `add(null, null)`. The
existence assertion is present. -/
theorem add_rendering_lacks_numeric_bindings :
    extractExports c4Source =
      [{ name := "add", kind := "function", isAsync := false,
         params := ["a", "b"], isDefault := false }] ∧
    (GenerateTestWithAugmentBasic "math.ts" c4Source "vitest").isOk = true ∧
    (GenerateTest "math.ts" c4Source "vitest").isOk = true ∧
    strContains c4AugmentOut "expect(add).toBeDefined();" = true ∧
    strContains c4AugmentOut "const result = add();" = true ∧
    strContains c4AugmentOut "const a" = false ∧
    strContains c4AugmentOut "42" = false ∧
    strContains c4AugmentOut "add(a, b)" = false ∧
    strContains c4BasicOut "const result = add(null, null);" = true ∧
    strContains c4BasicOut "add(a, b)" = false :=
  ⟨by decide, by decide, by decide, by decide, by decide,
   by decide, by decide, by decide, by decide, by decide⟩

/-! Claim C10 — at most one default-export symbol. -/

/-- Two default exports: only the first is extracted. -/
def c10FirstText : String := "export default foo\nexport default bar"

/-- A default export with no trailing identifier. -/
def c10NoNameText : String := "export default () => \x7b\x7d"

/-- C10: the extractor emits at most one default-export symbol for any text;
with several `export default` occurrences only the first yields the symbol,
named by its trailing identifier, and without a trailing identifier the name
falls back to the literal "default". -/
theorem extractExports_at_most_one_default :
    (∀ code : String,
      ((extractExports code).filter (fun s => s.kind == "default")).length ≤ 1) ∧
    extractExports c10FirstText =
      [{ name := "foo", kind := "default", isAsync := false, params := [], isDefault := true }] ∧
    extractExports c10NoNameText =
      [{ name := "default", kind := "default", isAsync := false, params := [], isDefault := true }] := by
  refine ⟨fun code => ?_, by decide, by decide⟩
  have hf : (funcExports code).filter (fun s => s.kind == "default") = [] := by
    rw [List.filter_eq_nil_iff]
    intro s hs
    simp [kind_of_mem_funcExports hs]
  have hc : (constExports code).filter (fun s => s.kind == "default") = [] := by
    rw [List.filter_eq_nil_iff]
    intro s hs
    simp [kind_of_mem_constExports hs]
  have hcl : (classExports code).filter (fun s => s.kind == "default") = [] := by
    rw [List.filter_eq_nil_iff]
    intro s hs
    simp [kind_of_mem_classExports hs]
  unfold extractExports
  rw [List.filter_append, List.filter_append, List.filter_append, hf, hc, hcl]
  simp only [List.nil_append]
  exact le_trans (List.length_filter_le _ _) (defaultExports_length_le_one code)

end AutoTest




